import Mathlib

/-!
Verification of the Krishitantra SE-SLM drift-triggered self-evolution loop.

Shallow embedding of the Python backend (`backend/app/...`) in Lean 4:
Python floats are modelled as exact rationals (ℚ), dicts as association
lists in insertion order, and the stateful modules (drift detector window,
evolution cooldown, orchestrator cycle) as explicit state-passing
functions.  File-system / sklearn effects are abstracted as explicit
parameters (documented at each definition).
-/

set_option allowUnsafeReducibility true

attribute [semireducible] Rat.inv Rat.mul Rat.add Rat.sub Rat.ofScientific

namespace SESLM

/-! ### Structural analyzer (`backend/app/structural_analyzer.py`) -/

/-- `PRUNE_THRESHOLD = 0.15`. -/
def PRUNE_THRESHOLD : ℚ := 15 / 100

/-- `MAX_PRUNE_RATIO = 0.40`; the float literal `0.40` is modelled as the
exact rational 2/5 (for the list lengths arising here, `int(n * 0.40)`
on IEEE doubles agrees with `⌊n · 2/5⌋`). -/
def MAX_PRUNE_RATIO : ℚ := 2 / 5

/-- `HIGH_SPARSITY_THRESHOLD = 0.70`. -/
def HIGH_SPARSITY_THRESHOLD : ℚ := 7 / 10

/-- The `PROTECTED_BLOCKS` set from `structural_analyzer.py`. -/
def PROTECTED_BLOCKS : List String :=
  ["embedding", "output", "classifier", "safety", "shared"]

/-- `block.split(".")[0]`: the text before the first dot (the whole string
when there is no dot), computed on the character sequence. -/
def topPrefix (s : String) : String := String.mk (s.data.takeWhile (fun c => c ≠ '.'))

/-- Stable insertion of one key/score pair into a list sorted ascending by
score; an element with an equal score stays before the inserted one, as in
Python's stable `sorted`. -/
def insertByScore (p : String × ℚ) : List (String × ℚ) → List (String × ℚ)
  | [] => [p]
  | q :: rest => if q.2 ≤ p.2 then q :: insertByScore p rest else p :: q :: rest

/-- `sorted(candidates.items(), key=lambda x: x[1])`: stable sort ascending
by score. -/
def sortByScore : List (String × ℚ) → List (String × ℚ)
  | [] => []
  | p :: rest => insertByScore p (sortByScore rest)

/-- The selection loop of `identify_prunable_blocks` (lines 49-57): walk the
sorted candidates, skip protected prefixes, append while the selection is
below `max_allowed`. -/
def selectLoop (maxA : Nat) : List (String × ℚ) → List String → List String
  | [], sel => sel
  | (b, _) :: rest, sel =>
    if topPrefix b ∈ PROTECTED_BLOCKS then selectLoop maxA rest sel
    else if sel.length < maxA then selectLoop maxA rest (sel ++ [b])
    else selectLoop maxA rest sel

/-- `identify_prunable_blocks(block_importance)` from
`structural_analyzer.py` lines 30-58.  The dict is an association list in
insertion order; `int(len(sorted_candidates) * MAX_PRUNE_RATIO)` is the
floor of the exact rational product, taken to ℕ. -/
def identify_prunable_blocks (block_importance : List (String × ℚ)) : List String :=
  let candidates := block_importance.filter (fun p => p.2 < PRUNE_THRESHOLD)
  let sorted_candidates := sortByScore candidates
  let max_allowed :=
    if sorted_candidates.isEmpty then 0
    else max 1 (Int.toNat ⌊(sorted_candidates.length : ℚ) * MAX_PRUNE_RATIO⌋)
  selectLoop max_allowed sorted_candidates []

/-- One finding of `detect_redundant_ffn_layers`: the dict
`{"layer": ..., "sparsity": ..., "recommendation": ...}`.  The Python
`round(avg_sparsity, 4)` is omitted (sparsities are modelled as exact
rationals; no claim depends on the rounded digits). -/
structure FfnFinding where
  layer : String
  sparsity : ℚ
  recommendation : String
deriving DecidableEq, Repr

/-- The accumulation loop of `detect_redundant_ffn_layers` (lines 88-98),
in dict iteration order. -/
def ffnLoop : List (String × ℚ) → List FfnFinding
  | [] => []
  | (layer_name, avg_sparsity) :: rest =>
    if topPrefix layer_name ∈ PROTECTED_BLOCKS then ffnLoop rest
    else if avg_sparsity > HIGH_SPARSITY_THRESHOLD then
      { layer := layer_name, sparsity := avg_sparsity,
        recommendation := if avg_sparsity > 85 / 100 then "prune" else "compress" }
        :: ffnLoop rest
    else ffnLoop rest

/-- Stable insertion for the descending-by-sparsity sort
(`sorted(..., reverse=True)`). -/
def insertBySparsityDesc (p : FfnFinding) : List FfnFinding → List FfnFinding
  | [] => [p]
  | q :: rest =>
    if p.sparsity ≤ q.sparsity then q :: insertBySparsityDesc p rest
    else p :: q :: rest

/-- `sorted(redundant, key=lambda x: x["sparsity"], reverse=True)`. -/
def sortBySparsityDesc : List FfnFinding → List FfnFinding
  | [] => []
  | p :: rest => insertBySparsityDesc p (sortBySparsityDesc rest)

/-- `detect_redundant_ffn_layers(ffn_sparsity)` from
`structural_analyzer.py` lines 81-100. -/
def detect_redundant_ffn_layers (ffn_sparsity : List (String × ℚ)) : List FfnFinding :=
  sortBySparsityDesc (ffnLoop ffn_sparsity)

/-- Modelled from the claim's words, for comparison with the source: the
number of below-threshold, unprotected candidates in an importance map. -/
def unprotectedBelowThresholdCount (m : List (String × ℚ)) : Nat :=
  (m.filter (fun p => p.2 < PRUNE_THRESHOLD ∧ topPrefix p.1 ∉ PROTECTED_BLOCKS)).length

/-- `int(n * 0.40)` (floor of a nonnegative product) is natural floor
division by 5 after doubling. -/
theorem maxAllowed_eq_divNat (n : ℕ) :
    Int.toNat ⌊(n : ℚ) * MAX_PRUNE_RATIO⌋ = n * 2 / 5 := by
  rw [Int.floor_toNat]
  have h : (n : ℚ) * MAX_PRUNE_RATIO = ((n * 2 : ℕ) : ℚ) / ((5 : ℕ) : ℚ) := by
    push_cast [ MAX_PRUNE_RATIO]
    ring
  rw [h, Nat.floor_div_eq_div]

theorem selectLoop_protected (maxA : Nat) :
    ∀ (l : List (String × ℚ)) (sel : List String),
      (∀ b ∈ sel, topPrefix b ∉ PROTECTED_BLOCKS) →
      ∀ b ∈ selectLoop maxA l sel, topPrefix b ∉ PROTECTED_BLOCKS := by
  intro l
  induction l with
  | nil =>
    intro sel hsel b hb
    simp only [selectLoop] at hb
    exact hsel b hb
  | cons p rest ih =>
    intro sel hsel b hb
    obtain ⟨c, s⟩ := p
    simp only [selectLoop] at hb
    by_cases hp : topPrefix c ∈ PROTECTED_BLOCKS
    · rw [if_pos hp] at hb
      exact ih sel hsel b hb
    · rw [if_neg hp] at hb
      by_cases hlen : sel.length < maxA
      · rw [if_pos hlen] at hb
        refine ih (sel ++ [c]) ?_ b hb
        intro x hx
        rcases List.mem_append.1 hx with h | h
        · exact hsel x h
        · rw [List.mem_singleton] at h
          subst h
          exact hp
      · rw [if_neg hlen] at hb
        exact ih sel hsel b hb

theorem ffnLoop_protected :
    ∀ (l : List (String × ℚ)), ∀ f ∈ ffnLoop l, topPrefix f.layer ∉ PROTECTED_BLOCKS := by
  intro l
  induction l with
  | nil =>
    intro f hf
    simp [ffnLoop] at hf
  | cons p rest ih =>
    intro f hf
    obtain ⟨name, sp⟩ := p
    simp only [ffnLoop] at hf
    by_cases hp : topPrefix name ∈ PROTECTED_BLOCKS
    · rw [if_pos hp] at hf
      exact ih f hf
    · rw [if_neg hp] at hf
      by_cases hs : sp > HIGH_SPARSITY_THRESHOLD
      · rw [if_pos hs] at hf
        rcases List.mem_cons.1 hf with rfl | h
        · exact hp
        · exact ih f h
      · rw [if_neg hs] at hf
        exact ih f hf

theorem mem_insertBySparsityDesc (p f : FfnFinding) :
    ∀ (l : List FfnFinding), f ∈ insertBySparsityDesc p l ↔ f = p ∨ f ∈ l := by
  intro l
  induction l with
  | nil => simp [insertBySparsityDesc]
  | cons q rest ih =>
    simp only [insertBySparsityDesc]
    by_cases h : p.sparsity ≤ q.sparsity
    · rw [if_pos h]
      simp only [List.mem_cons, ih]
      tauto
    · rw [if_neg h]
      simp only [List.mem_cons]

theorem mem_sortBySparsityDesc (f : FfnFinding) :
    ∀ (l : List FfnFinding), f ∈ sortBySparsityDesc l ↔ f ∈ l := by
  intro l
  induction l with
  | nil => simp [sortBySparsityDesc]
  | cons p rest ih =>
    simp only [sortBySparsityDesc, mem_insertBySparsityDesc, List.mem_cons, ih]

/-- Claim C3: neither `identify_prunable_blocks` nor
`detect_redundant_ffn_layers` ever returns an identifier whose top-level
prefix (text before the first dot) lies in the protected set, for any
importance map and any sparsity map. -/
theorem C3_protected_never_returned
    (imp sp : List (String × ℚ)) (b : String) (f : FfnFinding)
    (hb : b ∈ identify_prunable_blocks imp)
    (hf : f ∈ detect_redundant_ffn_layers sp) :
    topPrefix b ∉ PROTECTED_BLOCKS ∧ topPrefix f.layer ∉ PROTECTED_BLOCKS := by
  constructor
  · simp only [identify_prunable_blocks] at hb
    exact selectLoop_protected _ _ [] (by intro x hx; simp at hx) b hb
  · have hmem : f ∈ ffnLoop sp := (mem_sortBySparsityDesc f (ffnLoop sp)).1 hf
    exact ffnLoop_protected sp f hmem

/-- Claim C3, witness: concrete runs of both functions. -/
theorem C3_protected_never_returned_w :
    topPrefix "L2.h1" ∉ PROTECTED_BLOCKS ∧
      topPrefix "encoder.ffn1" ∉ PROTECTED_BLOCKS :=
  C3_protected_never_returned
    [("L2.h1", 2 / 100), ("L1.h3", 5 / 100), ("L0.h0", 9 / 10)]
    [("encoder.ffn1", 9 / 10)]
    "L2.h1" { layer := "encoder.ffn1", sparsity := 9 / 10, recommendation := "prune" }
    (by decide) (by decide)

theorem length_insertByScore (p : String × ℚ) :
    ∀ (l : List (String × ℚ)), (insertByScore p l).length = l.length + 1 := by
  intro l
  induction l with
  | nil => rfl
  | cons q rest ih =>
    rw [insertByScore]
    by_cases h : q.2 ≤ p.2
    · rw [if_pos h, List.length_cons, ih, List.length_cons]
    · rw [if_neg h, List.length_cons, List.length_cons]

theorem length_sortByScore :
    ∀ (l : List (String × ℚ)), (sortByScore l).length = l.length := by
  intro l
  induction l with
  | nil => rfl
  | cons p rest ih =>
    rw [sortByScore, length_insertByScore, ih, List.length_cons]

theorem selectLoop_length_le (maxA : Nat) :
    ∀ (l : List (String × ℚ)) (sel : List String),
      (selectLoop maxA l sel).length ≤ max sel.length maxA := by
  intro l
  induction l with
  | nil =>
    intro sel
    simp only [selectLoop]
    exact le_max_left _ _
  | cons p rest ih =>
    intro sel
    obtain ⟨c, s⟩ := p
    simp only [selectLoop]
    by_cases hp : topPrefix c ∈ PROTECTED_BLOCKS
    · rw [if_pos hp]
      exact ih sel
    · rw [if_neg hp]
      by_cases hlen : sel.length < maxA
      · rw [if_pos hlen]
        refine le_trans (ih (sel ++ [c])) ?_
        have h1 : (sel ++ [c]).length ≤ maxA := by
          simp only [List.length_append, List.length_singleton]
          omega
        simp only [List.length_append, List.length_singleton]
        omega
      · rw [if_neg hlen]
        exact ih sel

/-- The concrete importance map refuting claim C4: eight protected
below-threshold entries inflate the internal cap. -/
def C4cxImportance : List (String × ℚ) :=
  [("embedding.a1", 1 / 100), ("embedding.a2", 2 / 100),
   ("embedding.a3", 3 / 100), ("embedding.a4", 4 / 100),
   ("embedding.a5", 5 / 100), ("embedding.a6", 6 / 100),
   ("embedding.a7", 7 / 100), ("embedding.a8", 8 / 100),
   ("layer.h1", 9 / 100), ("layer.h2", 1 / 10)]

/-- Claim C4, counterexample: on `C4cxImportance` the number of
below-threshold, unprotected candidates is k = 2 and the returned list has
length 2, yet the claim's bound `max(1, floor(k * max_ratio))` is 1. -/
theorem C4_max_ratio_cx :
    unprotectedBelowThresholdCount C4cxImportance = 2 ∧
    (identify_prunable_blocks C4cxImportance).length = 2 ∧
    ¬ ((identify_prunable_blocks C4cxImportance).length ≤
        max 1 (Int.toNat ⌊((2 : ℕ) : ℚ) * MAX_PRUNE_RATIO⌋)) := by
  refine ⟨by decide, by decide, ?_⟩
  have h3 : Int.toNat ⌊((2 : ℕ) : ℚ) * MAX_PRUNE_RATIO⌋ = 0 := by
    rw [maxAllowed_eq_divNat]
  rw [h3]
  decide

/-- Claim C4 (amended): the length of the returned list is bounded by
`max(1, floor(n * max_ratio))` where `n` counts ALL below-threshold
candidates — protected ones included — and by 0 when there is no
candidate at all. -/
theorem C4_max_ratio_bound (m : List (String × ℚ)) :
    (identify_prunable_blocks m).length ≤
      (if (m.filter (fun p => p.2 < PRUNE_THRESHOLD)).length = 0 then 0
       else max 1 (Int.toNat
         ⌊((m.filter (fun p => p.2 < PRUNE_THRESHOLD)).length : ℚ) * MAX_PRUNE_RATIO⌋)) := by
  unfold identify_prunable_blocks
  set cand := m.filter (fun p => p.2 < PRUNE_THRESHOLD) with hcand
  have hlen : (sortByScore cand).length = cand.length := length_sortByScore cand
  by_cases hempty : (sortByScore cand).isEmpty
  · have h0 : cand.length = 0 := by
      rw [← hlen]
      exact List.isEmpty_iff_length_eq_zero.1 hempty
    rw [if_pos h0]
    have hnil : sortByScore cand = [] := List.isEmpty_iff.1 hempty
    simp only [hempty, if_true, hnil, selectLoop, List.length_nil, le_refl]
  · have h0 : ¬ cand.length = 0 := by
      rw [← hlen]
      intro h
      exact hempty (List.isEmpty_iff_length_eq_zero.2 h)
    rw [if_neg h0]
    simp only [hempty, if_false]
    have hb := selectLoop_length_le
      (max 1 (Int.toNat ⌊((sortByScore cand).length : ℚ) * MAX_PRUNE_RATIO⌋))
      (sortByScore cand) []
    rw [hlen] at hb
    rw [hlen]
    simpa using hb

/-! ### Drift detector (`backend/app/drift_detector.py`) -/

/-- `MAX_MEMORY = 20`. -/
def MAX_MEMORY : Nat := 20

/-- Helper for Python `str.split()` with no argument: split a character list
on whitespace runs, discarding empty pieces; `cur` accumulates the current
word reversed. -/
def wordsAux : List Char → List Char → List String
  | [], cur => if cur.isEmpty then [] else [String.mk cur.reverse]
  | c :: rest, cur =>
    if c.isWhitespace then
      if cur.isEmpty then wordsAux rest []
      else String.mk cur.reverse :: wordsAux rest []
    else wordsAux rest (c :: cur)

/-- `text.lower().split()`. -/
def tokenize (s : String) : List String :=
  wordsAux (s.data.map Char.toLower) []

/-- `compute_vocab_shift(text)` from `drift_detector.py` lines 79-96, with
the module-global `vocab_memory` passed explicitly and returned updated.
A Python `Counter` is represented by its underlying token list:
`current[t]` is `count t`, `sum(current.values())` is the list length, and
`for t in current` iterates over the distinct tokens of the NEW text. -/
def compute_vocab_shift (vocab_memory : List (List String)) (text : String) :
    ℚ × List (List String) :=
  let tokens := tokenize text
  match vocab_memory.getLast? with
  | none => (0, vocab_memory ++ [tokens])
  | some previous =>
    let diff := (tokens.dedup.map (fun t =>
      Int.natAbs ((tokens.count t : ℤ) - (previous.count t : ℤ)))).sum
    let total := tokens.length + 1
    let shift : ℚ := (diff : ℚ) / (total : ℚ)
    let m := vocab_memory ++ [tokens]
    (shift, if m.length > MAX_MEMORY then m.tail else m)

/-- `compute_intent_variance()` (lines 103-112): 0 when fewer than five
windowed samples exist, else an sklearn vector variance of the last five,
abstracted as the oracle `var`. -/
def compute_intent_variance (var : List String → ℚ) (text_memory : List String) : ℚ :=
  if text_memory.length < 5 then 0 else var (text_memory.drop (text_memory.length - 5))

/-- The in-memory drift state of `drift_detector.py`: the module globals
`text_memory` and `vocab_memory`. -/
structure DriftState where
  text_memory : List String
  vocab_memory : List (List String)
deriving DecidableEq, Repr

/-- `detect_drift(text, threshold=0.35)` (lines 119-175).  The sklearn
TF-IDF computations are abstracted as oracles: `emb` is the raw
`1 - cosine_similarity` of the new text against the windowed texts (the
code floors it at 0), `var` is the vector variance of the last five
windowed texts; both are applied to the PRE-append window, exactly as in
the source, where the memory update happens strictly after scoring.
Rounding of the returned score to 4 decimal digits is omitted (exact
rationals).  Returns (drift_flag, drift_score, new state). -/
def detect_drift (emb : List String → String → ℚ) (var : List String → ℚ)
    (s : DriftState) (text : String) (threshold : ℚ := 7 / 20) :
    Bool × ℚ × DriftState :=
  if s.text_memory.length = 0 then
    (false, 0, { s with text_memory := s.text_memory ++ [text] })
  else
    let embedding_shift := max 0 (emb s.text_memory text)
    let vocab_shift := (compute_vocab_shift s.vocab_memory text).1
    let vm := (compute_vocab_shift s.vocab_memory text).2
    let intent_variance := compute_intent_variance var s.text_memory
    let drift_score :=
      6 / 10 * embedding_shift + 3 / 10 * vocab_shift + 1 / 10 * intent_variance
    let tm := s.text_memory ++ [text]
    let tm := if tm.length > MAX_MEMORY then tm.tail else tm
    (drift_score > threshold, drift_score, { text_memory := tm, vocab_memory := vm })

/-- Fold a list of incoming request texts through `detect_drift`. -/
def observeAll (emb : List String → String → ℚ) (var : List String → ℚ)
    (s : DriftState) (texts : List String) : DriftState :=
  texts.foldl (fun st t => (detect_drift emb var st t).2.2) s

theorem detect_drift_text_memory (e : List String → String → ℚ)
    (v : List String → ℚ) (s : DriftState) (t : String) :
    ((detect_drift e v s t).2.2).text_memory =
      if (s.text_memory ++ [t]).length > MAX_MEMORY then (s.text_memory ++ [t]).tail
      else s.text_memory ++ [t] := by
  unfold detect_drift
  by_cases h0 : s.text_memory.length = 0
  · rw [if_pos h0]
    have he : s.text_memory = [] := List.length_eq_zero.1 h0
    rw [he]
    rfl
  · rw [if_neg h0]

theorem observeAll_text_memory (e : List String → String → ℚ) (v : List String → ℚ) :
    ∀ (texts : List String) (s : DriftState), s.text_memory.length ≤ MAX_MEMORY →
      (observeAll e v s texts).text_memory =
        (s.text_memory ++ texts).drop ((s.text_memory ++ texts).length - MAX_MEMORY) := by
  intro texts
  induction texts with
  | nil =>
    intro s hs
    simp only [observeAll, List.foldl_nil, List.append_nil]
    rw [Nat.sub_eq_zero_of_le (by simpa using hs), List.drop_zero]
  | cons t ts ih =>
    intro s hs
    have hcons : observeAll e v s (t :: ts) = observeAll e v ((detect_drift e v s t).2.2) ts := rfl
    rw [hcons]
    have hstep := detect_drift_text_memory e v s t
    by_cases h : (s.text_memory ++ [t]).length > MAX_MEMORY
    · rw [if_pos h] at hstep
      have hw20 : s.text_memory.length = MAX_MEMORY := by
        simp only [List.length_append, List.length_singleton] at h
        omega
      obtain ⟨hd, wt, hw⟩ : ∃ hd wt, s.text_memory = hd :: wt := by
        cases hwc : s.text_memory with
        | nil => rw [hwc] at hw20; simp [MAX_MEMORY] at hw20
        | cons a l => exact ⟨a, l, rfl⟩
      have hlen' : ((detect_drift e v s t).2.2).text_memory.length ≤ MAX_MEMORY := by
        rw [hstep, hw]
        simp only [List.cons_append, List.tail_cons, List.length_append,
          List.length_singleton]
        rw [hw] at hw20
        simp only [List.length_cons] at hw20
        omega
      have hM : MAX_MEMORY = 20 := rfl
      have hwt : wt.length = 19 := by
        rw [hw] at hw20
        simp only [List.length_cons] at hw20
        omega
      rw [ih _ hlen', hstep, hw]
      simp only [List.cons_append, List.tail_cons, List.append_assoc,
        List.singleton_append, List.nil_append]
      have hlenl : (wt ++ t :: ts).length = 20 + ts.length := by
        simp only [List.length_append, List.length_cons]
        omega
      rw [List.length_cons, hlenl,
        show 20 + ts.length - MAX_MEMORY = ts.length from by omega,
        show 20 + ts.length + 1 - MAX_MEMORY = ts.length + 1 from by omega,
        List.drop_succ_cons]
    · rw [if_neg h] at hstep
      have hlen' : ((detect_drift e v s t).2.2).text_memory.length ≤ MAX_MEMORY := by
        rw [hstep]
        simp only [List.length_append, List.length_singleton] at h ⊢
        omega
      rw [ih _ hlen', hstep, List.append_assoc, List.singleton_append]

/-- Twenty-five distinct request texts, used to exercise the capacity-20
window. -/
def C5texts : List String :=
  ["t01", "t02", "t03", "t04", "t05", "t06", "t07", "t08", "t09", "t10",
   "t11", "t12", "t13", "t14", "t15", "t16", "t17", "t18", "t19", "t20",
   "t21", "t22", "t23", "t24", "t25"]

/-- Claim C5, counterexample: after inserting 25 texts into the empty
capacity-20 detector the window is the 6th-through-25th texts, not the
5th-through-25th slice the claim names (that slice has 21 elements). -/
theorem C5_window_fifo_cx :
    ¬ ((observeAll (fun _ _ => (0 : ℚ)) (fun _ => (0 : ℚ))
          { text_memory := [], vocab_memory := [] } C5texts).text_memory
        = C5texts.drop 4) := by
  have h := observeAll_text_memory (fun _ _ => (0 : ℚ)) (fun _ => (0 : ℚ))
    C5texts { text_memory := [], vocab_memory := [] } (by simp [MAX_MEMORY])
  simp only [List.nil_append] at h
  rw [h]
  decide

/-- Claim C5 (amended): after inserting N+5 texts (N = 20) into an empty
detector the text window holds exactly N entries, namely the 6TH through
(N+5)th inserted texts, oldest evicted first; and every scoring call on a
non-empty window computes its score purely from the pre-append window and
vocab memory (the new text is appended only after its own score is
computed). -/
theorem C5_window_fifo (e : List String → String → ℚ) (v : List String → ℚ)
    (texts : List String) (s : DriftState) (t : String)
    (hlen : texts.length = MAX_MEMORY + 5) (hne : ¬ s.text_memory.length = 0) :
    (observeAll e v { text_memory := [], vocab_memory := [] } texts).text_memory
        = texts.drop 5 ∧
      (observeAll e v { text_memory := [], vocab_memory := [] } texts).text_memory.length
        = MAX_MEMORY ∧
      (detect_drift e v s t).2.1 =
        6 / 10 * max 0 (e s.text_memory t) +
          3 / 10 * (compute_vocab_shift s.vocab_memory t).1 +
          1 / 10 * compute_intent_variance v s.text_memory := by
  have hobs := observeAll_text_memory e v texts
    { text_memory := [], vocab_memory := [] } (by simp [MAX_MEMORY])
  simp only [List.nil_append] at hobs
  rw [hlen, Nat.add_sub_cancel_left] at hobs
  refine ⟨hobs, ?_, ?_⟩
  · rw [hobs, List.length_drop, hlen]
    rfl
  · unfold detect_drift
    rw [if_neg hne]

/-- Claim C5, witness: the amended statement at 25 concrete texts with the
zero oracles. -/
theorem C5_window_fifo_w :
    C5texts.length = MAX_MEMORY + 5 ∧
      ¬ (DriftState.mk ["warm"] []).text_memory.length = 0 ∧
      ((observeAll (fun _ _ => (0 : ℚ)) (fun _ => (0 : ℚ))
            { text_memory := [], vocab_memory := [] } C5texts).text_memory
          = C5texts.drop 5 ∧
        (observeAll (fun _ _ => (0 : ℚ)) (fun _ => (0 : ℚ))
            { text_memory := [], vocab_memory := [] } C5texts).text_memory.length
          = MAX_MEMORY ∧
        (detect_drift (fun _ _ => (0 : ℚ)) (fun _ => (0 : ℚ))
            (DriftState.mk ["warm"] []) "fresh").2.1 =
          6 / 10 * max 0 ((fun _ _ => (0 : ℚ)) (DriftState.mk ["warm"] []).text_memory "fresh") +
            3 / 10 * (compute_vocab_shift (DriftState.mk ["warm"] []).vocab_memory "fresh").1 +
            1 / 10 * compute_intent_variance (fun _ => (0 : ℚ))
              (DriftState.mk ["warm"] []).text_memory) :=
  ⟨by decide, by decide,
    C5_window_fifo (fun _ _ => (0 : ℚ)) (fun _ => (0 : ℚ)) C5texts
      (DriftState.mk ["warm"] []) "fresh" (by decide) (by decide)⟩

/-- Modelled from the claim's words, for comparison with the source: the
symmetric multiset distance — the sum of absolute per-token count
differences over the tokens of BOTH texts — divided by (total tokens in the
new text + 1). -/
def vocabShiftSpec (cur prev : List String) : ℚ :=
  (((cur ++ prev).dedup).map (fun t =>
    Int.natAbs ((cur.count t : ℤ) - (prev.count t : ℤ)))).sum / ((cur.length : ℚ) + 1)

/-- The asymmetric sum the source actually computes: only tokens occurring
in the new text contribute. -/
def vocabShiftNewTokens (cur prev : List String) : ℚ :=
  ((cur.dedup).map (fun t =>
    Int.natAbs ((cur.count t : ℤ) - (prev.count t : ℤ)))).sum / ((cur.length : ℚ) + 1)

/-- Claim C7, counterexample: with most recent prior text "a b" and new
text "a", the code computes shift 0, while the claimed symmetric multiset
distance over both texts gives 1/2. -/
theorem C7_vocab_shift_cx :
    (compute_vocab_shift [["a", "b"]] "a").1 = 0 ∧
      vocabShiftSpec (tokenize "a") ["a", "b"] = 1 / 2 ∧
      ¬ ((0 : ℚ) = 1 / 2) := by
  refine ⟨by decide, by decide, by norm_num⟩

/-- Claim C7 (amended): for every new text with at least one prior entry in
the vocab memory, the vocabulary-shift signal equals the sum over the
tokens OF THE NEW TEXT of the absolute per-token count differences against
the single most recent prior text, divided by (total tokens in the new
text + 1); tokens occurring only in the prior text are ignored. -/
theorem C7_vocab_shift (vm : List (List String)) (prev : List String) (text : String)
    (h : vm.getLast? = some prev) :
    (compute_vocab_shift vm text).1 = vocabShiftNewTokens (tokenize text) prev := by
  unfold compute_vocab_shift vocabShiftNewTokens
  rw [h]
  push_cast
  ring

/-- Claim C7, witness: the amended statement at a concrete memory and text. -/
theorem C7_vocab_shift_w :
    ([["hello"]] : List (List String)).getLast? = some ["hello"] ∧
      (compute_vocab_shift [["hello"]] "hello world").1 =
        vocabShiftNewTokens (tokenize "hello world") ["hello"] :=
  ⟨by decide, C7_vocab_shift [["hello"]] ["hello"] "hello world" (by decide)⟩

/-! ### Candidate evaluator (`backend/app/evolution/evaluator.py`)

`evaluate_candidate` is a pure arithmetic function; its sequential
reassignments are split into one named definition per final value, each
mirroring the corresponding source lines.  `round(x, 2)` on the percent
values is omitted: its inputs `num_pruned * 7.0` / `num_pruned * 10.0` and
the bumped constants are integer-valued, so the rounding is the identity;
the `round(risk, 4)` on the returned risk field is likewise omitted (the
score uses the unrounded risk in the source). -/

/-- `latency_percent` after the minimum-threshold bump (lines 30, 38-40). -/
def latencyPercent (n : ℕ) : ℚ :=
  if (n : ℚ) * 7 < 20 ∧ 1 ≤ n then max ((n : ℚ) * 7) 21 else (n : ℚ) * 7

/-- `latency_gain_ms` after the bump (lines 29, 38-40). -/
def latencyGainMs (n : ℕ) : ℚ :=
  if (n : ℚ) * 7 < 20 ∧ 1 ≤ n then max ((n : ℚ) * 25) 50 else (n : ℚ) * 25

/-- `memory_percent` after the bump (lines 35, 41-43). -/
def memoryPercent (n : ℕ) : ℚ :=
  if (n : ℚ) * 10 < 30 ∧ 1 ≤ n then max ((n : ℚ) * 10) 31 else (n : ℚ) * 10

/-- `memory_gain_mb` after the bump (lines 34, 41-43). -/
def memoryGainMb (n : ℕ) : ℚ :=
  if (n : ℚ) * 10 < 30 ∧ 1 ≤ n then max ((n : ℚ) * 15) 40 else (n : ℚ) * 15

/-- `risk` (lines 46-51): mean of the looked-up importances of the pruned
blocks, missing entries defaulting to 0; 0 for an empty plan. -/
def riskOf (candidate : List String) (block_importance : List (String × ℚ)) : ℚ :=
  let importance_values := candidate.map (fun b => ((block_importance.lookup b).getD 0))
  if importance_values.isEmpty then 0
  else importance_values.sum / (importance_values.length : ℚ)

/-- `target_bonus` (lines 54-56). -/
def targetBonus (n : ℕ) : ℚ :=
  (if 20 ≤ latencyPercent n then 1 / 2 else 0) +
    (if 30 ≤ memoryPercent n then 1 / 2 else 0)

/-- The result dict of `evaluate_candidate` (numeric fields; the
`projected_*` strings repeat `latency_percent`/`memory_percent`). -/
structure EvalResult where
  candidate : List String
  latency_gain_ms : ℚ
  memory_gain_mb : ℚ
  latency_percent : ℚ
  memory_percent : ℚ
  risk : ℚ
  score : ℚ
deriving DecidableEq, Repr

/-- `evaluate_candidate(candidate, block_importance)` from `evaluator.py`
lines 15-70; the candidate is its `prune_blocks` list. -/
def evaluate_candidate (candidate : List String)
    (block_importance : List (String × ℚ)) : EvalResult :=
  let n := candidate.length
  { candidate := candidate
    latency_gain_ms := latencyGainMs n
    memory_gain_mb := memoryGainMb n
    latency_percent := latencyPercent n
    memory_percent := memoryPercent n
    risk := riskOf candidate block_importance
    score := latencyGainMs n * (8 / 10) + memoryGainMb n * (5 / 10) +
      targetBonus n - riskOf candidate block_importance * 20 }

theorem latencyPercent_ge (n : ℕ) (hn : 1 ≤ n) : 21 ≤ latencyPercent n := by
  unfold latencyPercent
  obtain h1 | h2 | h3 : n = 1 ∨ n = 2 ∨ 3 ≤ n := by omega
  · rw [h1]
    norm_num
  · rw [h2]
    norm_num
  · have hq : (3 : ℚ) ≤ (n : ℚ) := by exact_mod_cast h3
    rw [if_neg (by rintro ⟨hlt, -⟩; linarith)]
    linarith

theorem memoryPercent_ge (n : ℕ) (hn : 1 ≤ n) : 30 ≤ memoryPercent n := by
  unfold memoryPercent
  obtain h1 | h2 | h3 : n = 1 ∨ n = 2 ∨ 3 ≤ n := by omega
  · rw [h1]
    norm_num
  · rw [h2]
    norm_num
  · have hq : (3 : ℚ) ≤ (n : ℚ) := by exact_mod_cast h3
    rw [if_neg (by rintro ⟨hlt, -⟩; linarith)]
    linarith

theorem targetBonus_eq_one (n : ℕ) (hn : 1 ≤ n) : targetBonus n = 1 := by
  unfold targetBonus
  rw [if_pos (le_trans (by norm_num) (latencyPercent_ge n hn)),
    if_pos (le_trans (by norm_num) (memoryPercent_ge n hn))]
  norm_num

/-- Claim C10, counterexample: a 3-block candidate gets
`memory_percent = 30`, not the claimed "at least 31%" (the bump only fires
strictly below 30). -/
theorem C10_bonus_cx :
    (evaluate_candidate ["b1", "b2", "b3"] []).memory_percent = 30 ∧
      ¬ (31 ≤ (evaluate_candidate ["b1", "b2", "b3"] []).memory_percent) := by
  constructor
  · show memoryPercent 3 = 30
    unfold memoryPercent
    norm_num
  · show ¬ (31 ≤ memoryPercent 3)
    unfold memoryPercent
    norm_num

/-- Claim C10 (amended): every candidate with at least one pruned block
reports a projected latency improvement of at least 21% and a projected
memory improvement of at least 30%, so both fixed-target bonuses (0.5
each, thresholds 20%/30%) are added to every non-empty candidate's
composite score — the bonus never discriminates between non-empty
candidates. -/
theorem C10_bonus (c : List String) (bi : List (String × ℚ)) (hc : c ≠ []) :
    21 ≤ (evaluate_candidate c bi).latency_percent ∧
      30 ≤ (evaluate_candidate c bi).memory_percent ∧
      (evaluate_candidate c bi).score =
        (evaluate_candidate c bi).latency_gain_ms * (8 / 10) +
          (evaluate_candidate c bi).memory_gain_mb * (5 / 10) + 1 -
          (evaluate_candidate c bi).risk * 20 := by
  have hn : 1 ≤ c.length := List.length_pos.2 hc
  refine ⟨latencyPercent_ge _ hn, memoryPercent_ge _ hn, ?_⟩
  show latencyGainMs c.length * (8 / 10) + memoryGainMb c.length * (5 / 10) +
      targetBonus c.length - riskOf c bi * 20 = _
  rw [targetBonus_eq_one _ hn]
  rfl

/-- Claim C10, witness: the amended statement at a concrete one-block
candidate. -/
theorem C10_bonus_w :
    (["b1"] : List String) ≠ [] ∧
      (21 ≤ (evaluate_candidate ["b1"] []).latency_percent ∧
        30 ≤ (evaluate_candidate ["b1"] []).memory_percent ∧
        (evaluate_candidate ["b1"] []).score =
          (evaluate_candidate ["b1"] []).latency_gain_ms * (8 / 10) +
            (evaluate_candidate ["b1"] []).memory_gain_mb * (5 / 10) + 1 -
            (evaluate_candidate ["b1"] []).risk * 20) :=
  ⟨by decide, C10_bonus ["b1"] [] (by decide)⟩

/-! ### Candidate generator (`backend/app/evolution/candidate_generator.py`) -/

/-- `generate_candidates(prunable_blocks)`: Python iterates
`r in range(1, min(6, len + 1))` and emits every
`itertools.combinations(prunable_blocks, r)` — i.e. every subsequence of
the input of length r, for r = 1..min(5, len).  `List.sublistsLen`
enumerates exactly those subsequences (in a different order; the claims
are order-independent).  A plan is identified with its `prune_blocks`
list. -/
def generate_candidates (prunable_blocks : List String) : List (List String) :=
  (List.range' 1 (min 5 prunable_blocks.length)).flatMap
    (fun r => List.sublistsLen r prunable_blocks)

/-- The candidate-preparation steps of `run_evolution_cycle` (orchestrator
lines 115-128): an empty prunable set is replaced by the
`"default_pruning"` sentinel before generation, and an empty candidate
list falls back to a single plan holding the first prunable block. -/
def orchestratorCandidates (prunable_blocks : List String) : List (List String) :=
  let pb := if prunable_blocks.isEmpty then ["default_pruning"] else prunable_blocks
  let cs := generate_candidates pb
  if cs.isEmpty then [pb.take 1] else cs

/-- Claim C8: the generator emits exactly the subsequences of size
1..min(5, k) — their number is the sum of the binomial coefficients
C(k, r) for r = 1..min(5, k) — and an empty prunable set degrades to the
single default plan. -/
theorem C8_candidates (l : List String) (c : List String) :
    (generate_candidates l).length =
        ((List.range' 1 (min 5 l.length)).map (fun r => Nat.choose l.length r)).sum ∧
      (c ∈ generate_candidates l ↔
        List.Sublist c l ∧ 1 ≤ c.length ∧ c.length ≤ min 5 l.length) ∧
      orchestratorCandidates [] = [["default_pruning"]] := by
  refine ⟨?_, ?_, by decide⟩
  · unfold generate_candidates
    rw [List.length_flatMap]
    congr 1
    simp [Function.comp, List.length_sublistsLen]
  · unfold generate_candidates
    simp only [List.mem_flatMap, List.mem_range', List.mem_sublistsLen]
    constructor
    · rintro ⟨r, ⟨i, hi, rfl⟩, hsub, hlen⟩
      refine ⟨hsub, ?_, ?_⟩ <;> omega
    · rintro ⟨hsub, h1, h2⟩
      refine ⟨c.length, ⟨c.length - 1, ?_, ?_⟩, hsub, rfl⟩ <;> omega

/-! ### Evolution trigger with cooldown (`backend/app/main.py` lines 146-181) -/

/-- `EVOLUTION_COOLDOWN = 600` seconds. -/
def EVOLUTION_COOLDOWN : ℚ := 600

/-- The module state of the trigger: `LAST_EVOLUTION_TIME` (0 at startup).
Timestamps (Python `time.time()` floats) are modelled as rationals. -/
structure TriggerState where
  last_evolution_time : ℚ
deriving DecidableEq, Repr

/-- `trigger_evolution()` from `main.py` lines 152-181, projected onto its
cooldown decision with `current_time` passed explicitly: inside the lock,
an attempt within `EVOLUTION_COOLDOWN` of the last cycle start only logs a
skip and returns — the state is untouched and nothing is queued; otherwise
`LAST_EVOLUTION_TIME` is set to `current_time` and the cycle body runs.
Returns (cycle executed?, new state). -/
def trigger_evolution (s : TriggerState) (current_time : ℚ) : Bool × TriggerState :=
  if current_time - s.last_evolution_time < EVOLUTION_COOLDOWN then (false, s)
  else (true, { last_evolution_time := current_time })

/-- Fold a sequence of trigger attempts at the given times, collecting the
start times of the cycles that actually executed. -/
def triggerRuns (s : TriggerState) : List ℚ → List ℚ
  | [] => []
  | t :: ts =>
    if (trigger_evolution s t).1 then t :: triggerRuns (trigger_evolution s t).2 ts
    else triggerRuns (trigger_evolution s t).2 ts

theorem triggerRuns_chain (ts : List ℚ) :
    ∀ (s : TriggerState),
      List.Chain' (fun a b => a + EVOLUTION_COOLDOWN ≤ b)
        (s.last_evolution_time :: triggerRuns s ts) := by
  induction ts with
  | nil =>
    intro s
    simp [triggerRuns]
  | cons t ts ih =>
    intro s
    rw [triggerRuns]
    by_cases h : t - s.last_evolution_time < EVOLUTION_COOLDOWN
    · rw [if_neg (by simp [trigger_evolution, if_pos h])]
      have hstate : (trigger_evolution s t).2 = s := by
        simp [trigger_evolution, if_pos h]
      rw [hstate]
      exact ih s
    · rw [if_pos (by simp [trigger_evolution, if_neg h])]
      have hstate : (trigger_evolution s t).2 = { last_evolution_time := t } := by
        simp [trigger_evolution, if_neg h]
      rw [hstate]
      refine List.Chain'.cons ?_ ?_
      · linarith [not_lt.1 h]
      · exact ih { last_evolution_time := t }

/-- Claim C6: a trigger attempt within `EVOLUTION_COOLDOWN` (600 s) of an
executed cycle start is dropped with the state unchanged — no queue, no
retry — so the two attempts execute exactly one cycle; and over any
sequence of attempts, consecutive executed cycle starts (and the first
start after the recorded last time) are at least `EVOLUTION_COOLDOWN`
apart. -/
theorem C6_cooldown (s : TriggerState) (t1 t2 : ℚ) (ts : List ℚ)
    (h1 : s.last_evolution_time + EVOLUTION_COOLDOWN ≤ t1)
    (h2 : t2 - t1 < EVOLUTION_COOLDOWN) :
    ((trigger_evolution s t1).1 = true ∧
      (trigger_evolution (trigger_evolution s t1).2 t2).1 = false ∧
      (trigger_evolution (trigger_evolution s t1).2 t2).2 = (trigger_evolution s t1).2) ∧
      List.Chain' (fun a b => a + EVOLUTION_COOLDOWN ≤ b)
        (s.last_evolution_time :: triggerRuns s ts) := by
  have hfire : trigger_evolution s t1 = (true, { last_evolution_time := t1 }) := by
    unfold trigger_evolution
    rw [if_neg (not_lt.2 (by linarith))]
  have hskip : trigger_evolution { last_evolution_time := t1 } t2 =
      (false, { last_evolution_time := t1 }) := by
    simp only [trigger_evolution]
    rw [if_pos (by simpa using h2)]
  refine ⟨⟨?_, ?_, ?_⟩, triggerRuns_chain ts s⟩
  · rw [hfire]
  · rw [hfire, hskip]
  · rw [hfire, hskip]

/-! ### Evolution orchestrator (`backend/app/evolution/orchestrator.py`)

`run_evolution_cycle` drives external effects (file reads, backup copy,
recompile, validation sandbox, registry write).  Each effectful step is
abstracted as an `Except`-valued outcome supplied by the environment
(`.error` models the step raising an exception); the pure in-between steps
(candidate generation, evaluation, `max`) cannot raise on the nonempty
candidate lists the code guarantees, and `log_evolution`/`rollback_model`
are modelled as non-raising (they swallow their errors).  The function
returns the result status string together with the ordered trace of
external calls it made, so that call counts are provable. -/

/-- A `ValidationReport.status`. -/
inductive ValStatus
  | PASS
  | FAIL
deriving DecidableEq, Repr

/-- One external call made by the cycle. -/
inductive CycleEv
  | logDecision
  | backup
  | recompile
  | validate
  | rollback
  | register
deriving DecidableEq, Repr

/-- The environment of one `run_evolution_cycle` call: whether the usage
report file exists and parses, and the outcome of each effectful step
(`.ok` = the Python call returned, `.error` = it raised). `backupOutcome`
carries `backup_model()`'s boolean result: the function returns `False`
(after printing a warning) when there is no model to back up. -/
structure CycleEnv where
  reportExists : Bool
  reportParses : Bool
  backupOutcome : Except String Bool
  recompileOutcome : Except String String
  validationOutcome : Except String ValStatus
  registerOutcome : Except String Unit
deriving Repr

/-- `run_evolution_cycle()` from `orchestrator.py` lines 90-193, as a
function of its environment, returning (status, ordered call trace):
steps 1-4 (report read, candidate generation/evaluation/selection) are
pure; then `log_evolution`, `backup_model` (its boolean result is not
inspected), `recompile_model`, `run_validation`, the FAIL gate with
`rollback_model`, and `register_model`; any exception inside the `try`
block triggers `rollback_model()` and an ERROR result. -/
def run_evolution_cycle (env : CycleEnv) : String × List CycleEv :=
  if env.reportExists = false then ("SKIPPED", [])
  else if env.reportParses = false then ("ERROR", [])
  else
    match env.backupOutcome with
    | .error _ => ("ERROR", [.logDecision, .backup, .rollback])
    | .ok _ =>
      match env.recompileOutcome with
      | .error _ => ("ERROR", [.logDecision, .backup, .recompile, .rollback])
      | .ok _ =>
        match env.validationOutcome with
        | .error _ =>
          ("ERROR", [.logDecision, .backup, .recompile, .validate, .rollback])
        | .ok v =>
          if v = ValStatus.FAIL then
            ("REJECTED", [.logDecision, .backup, .recompile, .validate, .rollback])
          else
            match env.registerOutcome with
            | .error _ =>
              ("ERROR",
                [.logDecision, .backup, .recompile, .validate, .register, .rollback])
            | .ok _ =>
              ("APPROVED", [.logDecision, .backup, .recompile, .validate, .register])

/-- Claim C1: when the cycle reaches validation and the report status is
FAIL, the cycle calls the rollback restore exactly once, never calls
`register_model`, and returns status REJECTED. -/
theorem C1_fail_gate (env : CycleEnv) (b : Bool) (ver : String)
    (hre : env.reportExists = true) (hrp : env.reportParses = true)
    (hb : env.backupOutcome = .ok b) (hrc : env.recompileOutcome = .ok ver)
    (hv : env.validationOutcome = .ok ValStatus.FAIL) :
    (run_evolution_cycle env).1 = "REJECTED" ∧
      (run_evolution_cycle env).2.count CycleEv.rollback = 1 ∧
      (run_evolution_cycle env).2.count CycleEv.register = 0 := by
  unfold run_evolution_cycle
  rw [hre, hrp, hb, hrc, hv]
  exact ⟨rfl, rfl, rfl⟩

/-- Claim C1, witness: a concrete failing-validation environment. -/
theorem C1_fail_gate_w :
    (run_evolution_cycle (CycleEnv.mk true true (.ok true) (.ok "v3")
        (.ok ValStatus.FAIL) (.ok ()))).1 = "REJECTED" ∧
      (run_evolution_cycle (CycleEnv.mk true true (.ok true) (.ok "v3")
          (.ok ValStatus.FAIL) (.ok ()))).2.count CycleEv.rollback = 1 ∧
      (run_evolution_cycle (CycleEnv.mk true true (.ok true) (.ok "v3")
          (.ok ValStatus.FAIL) (.ok ()))).2.count CycleEv.register = 0 :=
  C1_fail_gate (CycleEnv.mk true true (.ok true) (.ok "v3")
      (.ok ValStatus.FAIL) (.ok ()))
    true "v3" rfl rfl rfl rfl rfl

/-- Claim C2, counterexample: when `backup_model()` merely reports failure
by returning `False` (no model to back up), the cycle does NOT abort — the
recompile step is still invoked and the cycle can even end APPROVED. -/
theorem C2_backup_cx :
    (CycleEnv.mk true true (.ok false) (.ok "v3")
        (.ok ValStatus.PASS) (.ok ())).backupOutcome = .ok false ∧
      (run_evolution_cycle (CycleEnv.mk true true (.ok false) (.ok "v3")
          (.ok ValStatus.PASS) (.ok ()))).2.contains CycleEv.recompile = true ∧
      (run_evolution_cycle (CycleEnv.mk true true (.ok false) (.ok "v3")
          (.ok ValStatus.PASS) (.ok ()))).1 = "APPROVED" := by
  refine ⟨rfl, by decide, rfl⟩

/-- Claim C2 (amended): only when the backup step RAISES does the cycle
abort before the recompile: the exception is caught, `rollback_model` runs
and the cycle ends ERROR without ever invoking the optimizer; a backup
that merely returns `False` does not abort the cycle. -/
theorem C2_backup_abort (env : CycleEnv) (msg : String)
    (hre : env.reportExists = true) (hrp : env.reportParses = true)
    (hb : env.backupOutcome = .error msg) :
    (run_evolution_cycle env).1 = "ERROR" ∧
      (run_evolution_cycle env).2.contains CycleEv.recompile = false := by
  unfold run_evolution_cycle
  rw [hre, hrp, hb]
  exact ⟨rfl, rfl⟩

/-- Claim C2, witness: a concrete environment whose backup raises. -/
theorem C2_backup_abort_w :
    (run_evolution_cycle (CycleEnv.mk true true (.error "disk full") (.ok "v3")
        (.ok ValStatus.PASS) (.ok ()))).1 = "ERROR" ∧
      (run_evolution_cycle (CycleEnv.mk true true (.error "disk full") (.ok "v3")
          (.ok ValStatus.PASS) (.ok ()))).2.contains CycleEv.recompile = false :=
  C2_backup_abort (CycleEnv.mk true true (.error "disk full") (.ok "v3")
      (.ok ValStatus.PASS) (.ok ()))
    "disk full" rfl rfl rfl

/-! ### Model registry lineage (`backend/app/evolution/model_registry.py`) -/

/-- `get_previous_version(current_version)` from lines 33-49.  The sorted
directory listing of `models/optimized` (the `v*` directories, `backup`
excluded, sorted by numeric suffix) is passed as `versions`; Python's
`list.index` finds the first occurrence. -/
def get_previous_version (versions : List String) (current_version : String) : String :=
  if current_version ∈ versions then
    if 0 < versions.indexOf current_version then
      versions.getD (versions.indexOf current_version - 1) "base"
    else "base"
  else "base"

/-- The walk of `build_lineage` (lines 108-121): at most 20 iterations;
when the parent is the root sentinel or equals the current version the
chain is closed with `"base"` and the walk stops; when the fuel runs out
nothing more is appended. -/
def build_lineage_loop (versions : List String) :
    Nat → String → List String → List String
  | 0, _, lineage => lineage
  | fuel + 1, current, lineage =>
    let parent := get_previous_version versions current
    if parent = "base" ∨ parent = current then lineage ++ ["base"]
    else build_lineage_loop versions fuel parent (lineage ++ [parent])

/-- `build_lineage(version)`: the walked chain, reversed (root first). -/
def build_lineage (versions : List String) (version : String) : List String :=
  (build_lineage_loop versions 20 version [version]).reverse

theorem build_lineage_loop_base (versions : List String) (hnd : versions.Nodup) :
    ∀ (fuel : Nat) (current : String) (lineage : List String),
      1 ≤ fuel →
      (current ∈ versions → versions.indexOf current < fuel) →
      ∃ l, build_lineage_loop versions fuel current lineage = lineage ++ l ∧
        l.getLast? = some "base" := by
  intro fuel
  induction fuel with
  | zero =>
    intro current lineage h1 _
    omega
  | succ n ih =>
    intro current lineage h1 hidx
    rw [build_lineage_loop]
    by_cases hstop : get_previous_version versions current = "base" ∨
        get_previous_version versions current = current
    · rw [if_pos hstop]
      exact ⟨["base"], rfl, rfl⟩
    · rw [if_neg hstop]
      push_neg at hstop
      obtain ⟨hnb, hnc⟩ := hstop
      have hmem : current ∈ versions := by
        by_contra hn
        exact hnb (by unfold get_previous_version; rw [if_neg hn])
      have hpos : 0 < versions.indexOf current := by
        by_contra hn
        refine hnb ?_
        unfold get_previous_version
        rw [if_pos hmem, if_neg hn]
      have hlt : versions.indexOf current < versions.length :=
        List.indexOf_lt_length.2 hmem
      have hparent : get_previous_version versions current =
          versions.get ⟨versions.indexOf current - 1, by omega⟩ := by
        unfold get_previous_version
        rw [if_pos hmem, if_pos hpos, List.getD_eq_getElem?_getD,
          List.getElem?_eq_getElem (by omega)]
        rfl
      have hpmem : get_previous_version versions current ∈ versions := by
        rw [hparent]
        exact List.get_mem _ _ _
      have hpidx : versions.indexOf (get_previous_version versions current) =
          versions.indexOf current - 1 := by
        rw [hparent]
        exact List.get_indexOf hnd _
      have hn1 : 1 ≤ n := by
        have := hidx hmem
        omega
      obtain ⟨l, hl, hlast⟩ := ih (get_previous_version versions current)
        (lineage ++ [get_previous_version versions current]) hn1
        (by intro _; rw [hpidx]; have := hidx hmem; omega)
      refine ⟨get_previous_version versions current :: l, ?_, ?_⟩
      · rw [hl, List.append_assoc, List.singleton_append]
      · cases l with
        | nil => simp at hlast
        | cons a l' => rw [List.getLast?_cons_cons]; exact hlast

/-- The 22 version directories refuting claim C9's bound. -/
def C9versions : List String :=
  ["v1", "v2", "v3", "v4", "v5", "v6", "v7", "v8", "v9", "v10", "v11",
   "v12", "v13", "v14", "v15", "v16", "v17", "v18", "v19", "v20", "v21", "v22"]

/-- Claim C9, counterexample: with 22 registered versions, the lineage of
the newest one is truncated by the hard 20-iteration cap and never reaches
the root sentinel — and no integrity error exists in the code
(`build_lineage` totally returns a list). -/
theorem C9_lineage_cx :
    C9versions.length = 22 ∧ ¬ ("base" ∈ build_lineage C9versions "v22") := by
  constructor
  · rfl
  · decide

/-- Claim C9 (amended): when the version list is duplicate-free and holds
at most 20 entries, every lineage chain terminates at the root sentinel
(its root-first head is `"base"`) within the 20-step cap; a self-referential
or cyclic parent is silently closed with the sentinel rather than raising
an error, and with more than 21 versions the chain is truncated without
the sentinel. -/
theorem C9_lineage (versions : List String) (v : String)
    (hnd : versions.Nodup) (hlen : versions.length ≤ 20) :
    (build_lineage versions v).head? = some "base" := by
  obtain ⟨l, hl, hlast⟩ := build_lineage_loop_base versions hnd 20 v [v]
    (by omega)
    (by intro hm; exact lt_of_lt_of_le (List.indexOf_lt_length.2 hm) hlen)
  rw [build_lineage, hl, List.head?_reverse, List.getLast?_append, hlast]
  rfl

/-- Claim C9, witness: a concrete three-version registry. -/
theorem C9_lineage_w :
    (["v1", "v2", "v3"] : List String).Nodup ∧
      (["v1", "v2", "v3"] : List String).length ≤ 20 ∧
      (build_lineage ["v1", "v2", "v3"] "v3").head? = some "base" :=
  ⟨by decide, by decide, C9_lineage ["v1", "v2", "v3"] "v3" (by decide) (by decide)⟩

/-- Claim C6, witness: last cycle at time 0, attempts at 600 and 900. -/
theorem C6_cooldown_w :
    ((TriggerState.mk 0).last_evolution_time + EVOLUTION_COOLDOWN ≤ 600 ∧
        (900 : ℚ) - 600 < EVOLUTION_COOLDOWN) ∧
      ((trigger_evolution (TriggerState.mk 0) 600).1 = true ∧
        (trigger_evolution (trigger_evolution (TriggerState.mk 0) 600).2 900).1 = false ∧
        (trigger_evolution (trigger_evolution (TriggerState.mk 0) 600).2 900).2 =
          (trigger_evolution (TriggerState.mk 0) 600).2) ∧
      List.Chain' (fun a b => a + EVOLUTION_COOLDOWN ≤ b)
        ((TriggerState.mk 0).last_evolution_time ::
          triggerRuns (TriggerState.mk 0) [600, 900, 1500]) :=
  ⟨⟨by norm_num [EVOLUTION_COOLDOWN], by norm_num [EVOLUTION_COOLDOWN]⟩,
    C6_cooldown (TriggerState.mk 0) 600 900 [600, 900, 1500]
      (by norm_num [EVOLUTION_COOLDOWN]) (by norm_num [EVOLUTION_COOLDOWN])⟩

end SESLM
